import Mathlib

/-!
Verification of the transactional inventory and financial ledger core of a
retail point-of-sale system.  The embedded definitions follow the SQL schema
and PL/pgSQL functions (`update_inventory`, `generate_transaction_number`,
`generate_work_order_number`, `audit_trigger_func`) and the frontend POS
module (`POS.calculateTotals`, `POS.completePayment`, cart operations).
DECIMAL columns and JavaScript numbers are embedded as rationals; integer
cart quantities as integers.
-/

namespace POSVerify

/-! ## Stock ledger: `inventory`, `stock_movements`, `update_inventory` -/

/-- One `inventory` row for a fixed (warehouse, item, variant) key.
`available_quantity` is the STORED generated column
`GENERATED ALWAYS AS (quantity - reserved_quantity)`: it is stored in the
row and recomputed by the database on every INSERT/UPDATE of the row. -/
structure InventoryRow where
  quantity : ℚ
  reserved_quantity : ℚ
  available_quantity : ℚ
  avg_cost : ℚ
  deriving Repr, DecidableEq

/-- One `stock_movements` row for the fixed key (columns used by the claims). -/
structure StockMovement where
  quantity : ℚ
  unit_cost : Option ℚ
  quantity_before : ℚ
  quantity_after : ℚ
  deriving Repr, DecidableEq

/-- The database state restricted to one inventory key: the (at most one)
`inventory` row for the key and the `stock_movements` rows for the key in
insertion order. -/
structure LedgerState where
  inv : Option InventoryRow
  movements : List StockMovement
  deriving Repr, DecidableEq

/-- The `INSERT INTO inventory (warehouse_id, item_id, variant_id, quantity)
VALUES (..., 0)` performed by `update_inventory` when no row exists:
`reserved_quantity` and `avg_cost` take their column defaults (0), and the
generated column is computed as `quantity - reserved_quantity`. -/
def freshInventoryRow : InventoryRow :=
  { quantity := 0, reserved_quantity := 0, available_quantity := 0 - 0, avg_cost := 0 }

/-- Quantity read by `SELECT id, quantity INTO v_inventory_id, v_qty_before`:
the row quantity when the row exists; `update_inventory` sets
`v_qty_before := 0` when it does not. -/
def qtyBefore (s : LedgerState) : ℚ :=
  match s.inv with
  | some row => row.quantity
  | none => 0

/-- The PL/pgSQL function `update_inventory` restricted to one inventory key:
get-or-create the inventory row, compute `v_qty_after := v_qty_before +
p_quantity`, `UPDATE inventory SET quantity = v_qty_after` (the stored
generated column `available_quantity` is recomputed by the database), and
`INSERT INTO stock_movements (..., quantity, unit_cost, quantity_before,
quantity_after, ...)`.  The source has no error branch: it never raises and
never touches `avg_cost`. -/
def update_inventory (s : LedgerState) (p_quantity : ℚ) (p_unit_cost : Option ℚ) :
    LedgerState :=
  let row0 : InventoryRow :=
    match s.inv with
    | some row => row
    | none => freshInventoryRow
  let v_qty_before : ℚ := qtyBefore s
  let v_qty_after : ℚ := v_qty_before + p_quantity
  let row1 : InventoryRow :=
    { row0 with
        quantity := v_qty_after
        available_quantity := v_qty_after - row0.reserved_quantity }
  { inv := some row1
    movements := s.movements ++
      [{ quantity := p_quantity, unit_cost := p_unit_cost,
         quantity_before := v_qty_before, quantity_after := v_qty_after }] }

/-- A (non-concurrent) sequence of `update_inventory` calls on one key,
each call given as (signed quantity, unit cost). -/
def applyMovements (s : LedgerState) (calls : List (ℚ × Option ℚ)) : LedgerState :=
  calls.foldl (fun st c => update_inventory st c.1 c.2) s

/-- The empty database state for a key: the inventory row does not exist yet
and no movements are recorded. -/
def initialLedger : LedgerState := { inv := none, movements := [] }

/-- `avg_cost` visible on the key after some state: the row value, or the
column default 0 before the row exists. -/
def avgCostOf (s : LedgerState) : ℚ :=
  match s.inv with
  | some row => row.avg_cost
  | none => 0

/-- Weighted-average cost update as the specification words it:
`newAvgCost = (oldQty*oldAvgCost + inQty*unitCost) / (oldQty + inQty)`. -/
def specNewAvgCost (oldQty oldAvgCost inQty unitCost : ℚ) : ℚ :=
  (oldQty * oldAvgCost + inQty * unitCost) / (oldQty + inQty)

/-- Adjacent-pair chain condition on a movement list:
`movement[i].quantity_after = movement[i+1].quantity_before`. -/
def chainedMovements (ms : List StockMovement) : Prop :=
  List.Chain' (fun m₁ m₂ => m₁.quantity_after = m₂.quantity_before) ms

instance chainedMovementsDecidable (ms : List StockMovement) :
    Decidable (chainedMovements ms) := by
  unfold chainedMovements; infer_instance

/-- Consistency of a ledger state: the recorded movements are chained and the
last recorded `quantity_after` equals the current on-hand quantity. -/
def ledgerConsistent (s : LedgerState) : Prop :=
  chainedMovements s.movements ∧
  ∀ m : StockMovement, s.movements.getLast? = some m → m.quantity_after = qtyBefore s

lemma movements_update (s : LedgerState) (q : ℚ) (c : Option ℚ) :
    (update_inventory s q c).movements =
      s.movements ++
        [{ quantity := q, unit_cost := c, quantity_before := qtyBefore s,
           quantity_after := qtyBefore s + q }] := by
  cases h : s.inv <;> simp [update_inventory, qtyBefore, h]

lemma qtyBefore_update (s : LedgerState) (q : ℚ) (c : Option ℚ) :
    qtyBefore (update_inventory s q c) = qtyBefore s + q := by
  cases h : s.inv <;> simp [update_inventory, qtyBefore, h]

lemma ledgerConsistent_update (s : LedgerState) (q : ℚ) (c : Option ℚ)
    (h : ledgerConsistent s) : ledgerConsistent (update_inventory s q c) := by
  obtain ⟨hchain, hlast⟩ := h
  constructor
  · rw [movements_update]
    unfold chainedMovements at hchain ⊢
    rw [List.chain'_append]
    refine ⟨hchain, List.chain'_singleton _, ?_⟩
    intro x hx y hy
    simp only [List.head?_cons, Option.mem_def, Option.some.injEq] at hy
    subst hy
    exact hlast x hx
  · intro m hm
    rw [movements_update, List.getLast?_concat] at hm
    rw [Option.some.injEq] at hm
    subst hm
    rw [qtyBefore_update]

lemma ledgerConsistent_applyMovements (s : LedgerState)
    (h : ledgerConsistent s) (calls : List (ℚ × Option ℚ)) :
    ledgerConsistent (applyMovements s calls) := by
  induction calls generalizing s with
  | nil => exact h
  | cons c rest ih =>
      exact ih (update_inventory s c.1 c.2) (ledgerConsistent_update s c.1 c.2 h)

/-- C3: every `update_inventory` call appends exactly one `stock_movements`
row whose `quantity_before` is the inventory quantity at the start of the
call (0 when the row does not exist yet), whose `quantity_after` is
`quantity_before + p_quantity`, and sets the inventory quantity to
`quantity_after`; consequently any non-concurrent call sequence on one key,
starting from the key's creation, produces a movement list in which each
movement's `quantity_after` equals the next movement's `quantity_before`. -/
theorem C3_stock_movement_chain :
    (∀ (s : LedgerState) (q : ℚ) (c : Option ℚ),
      (update_inventory s q c).movements =
        s.movements ++
          [{ quantity := q, unit_cost := c, quantity_before := qtyBefore s,
             quantity_after := qtyBefore s + q }] ∧
      qtyBefore (update_inventory s q c) = qtyBefore s + q) ∧
    (∀ calls : List (ℚ × Option ℚ),
      chainedMovements (applyMovements initialLedger calls).movements) := by
  constructor
  · intro s q c
    exact ⟨movements_update s q c, qtyBefore_update s q c⟩
  · intro calls
    have hinit : ledgerConsistent initialLedger := by
      constructor
      · exact List.chain'_nil
      · intro m hm; simp [initialLedger] at hm
    exact (ledgerConsistent_applyMovements initialLedger hinit calls).1

/-- C1 counterexample: on an inventory row holding quantity 5, an outbound
movement of −10 (so `quantityAfter = −5 < 0`) does not fail and does not
leave the state unchanged: `update_inventory` sets the row quantity to −5
and inserts the `stock_movements` row.  The source function contains no
stock-sufficiency check and no error branch at all. -/
theorem C1_counterexample :
    ((-5 : ℚ) < 0) ∧
    (update_inventory
        { inv := some { quantity := 5, reserved_quantity := 0,
                        available_quantity := 5, avg_cost := 0 },
          movements := [] } (-10) none).inv =
      some { quantity := -5, reserved_quantity := 0,
             available_quantity := -5, avg_cost := 0 } ∧
    (update_inventory
        { inv := some { quantity := 5, reserved_quantity := 0,
                        available_quantity := 5, avg_cost := 0 },
          movements := [] } (-10) none).movements =
      [{ quantity := -10, unit_cost := none,
         quantity_before := 5, quantity_after := -5 }] := by
  refine ⟨by norm_num, ?_, ?_⟩ <;>
    · simp [update_inventory, qtyBefore]
      norm_num

/-- C1 amended: `update_inventory` performs no stock-sufficiency check.
For every call with a negative signed quantity whose resulting
`quantityAfter` is negative, the operation still succeeds, setting the
inventory quantity to the negative `quantityAfter` and appending the
`stock_movements` row; no `InsufficientStockError` exists in the code. -/
theorem C1_no_insufficient_stock_check (s : LedgerState) (q : ℚ) (c : Option ℚ)
    (hq : q < 0) (hneg : qtyBefore s + q < 0) :
    (update_inventory s q c).inv.map InventoryRow.quantity = some (qtyBefore s + q) ∧
    (update_inventory s q c).movements =
      s.movements ++
        [{ quantity := q, unit_cost := c, quantity_before := qtyBefore s,
           quantity_after := qtyBefore s + q }] := by
  refine ⟨?_, movements_update s q c⟩
  cases h : s.inv <;> simp [update_inventory, qtyBefore, h]

theorem C1_no_insufficient_stock_check_witness :
    (update_inventory
        { inv := some { quantity := 3, reserved_quantity := 0,
                        available_quantity := 3, avg_cost := 0 },
          movements := [] } (-4) none).inv.map InventoryRow.quantity =
      some (qtyBefore
        { inv := some { quantity := 3, reserved_quantity := 0,
                        available_quantity := 3, avg_cost := 0 },
          movements := [] } + (-4)) ∧
    (update_inventory
        { inv := some { quantity := 3, reserved_quantity := 0,
                        available_quantity := 3, avg_cost := 0 },
          movements := [] } (-4) none).movements =
      [] ++
        [{ quantity := -4, unit_cost := none,
           quantity_before := qtyBefore
             { inv := some { quantity := 3, reserved_quantity := 0,
                             available_quantity := 3, avg_cost := 0 },
               movements := [] },
           quantity_after := qtyBefore
             { inv := some { quantity := 3, reserved_quantity := 0,
                             available_quantity := 3, avg_cost := 0 },
               movements := [] } + (-4) }] :=
  C1_no_insufficient_stock_check _ (-4) none (by norm_num)
    (by simp [qtyBefore]; norm_num)

/-- C2 counterexample: with an existing row of quantity 10 at average cost
100, an inbound movement of 10 units at unit cost 200 leaves `avg_cost` at
100, while the claimed weighted-average formula yields 150:
`update_inventory` never writes `avg_cost`. -/
theorem C2_counterexample :
    avgCostOf (update_inventory
        { inv := some { quantity := 10, reserved_quantity := 0,
                        available_quantity := 10, avg_cost := 100 },
          movements := [] } 10 (some 200)) = 100 ∧
    specNewAvgCost 10 100 10 200 = 150 ∧
    (100 : ℚ) ≠ 150 := by
  refine ⟨?_, ?_, by norm_num⟩
  · simp [update_inventory, avgCostOf, qtyBefore]
  · unfold specNewAvgCost
    norm_num

/-- C2 amended: `update_inventory` never modifies `avg_cost`: inbound
movements (positive quantity with a unit cost) and outbound movements alike
leave the row's average cost unchanged (0, the column default, when the call
creates the row). -/
theorem C2_avg_cost_unchanged (s : LedgerState) (q : ℚ) (c : Option ℚ) :
    avgCostOf (update_inventory s q c) = avgCostOf s := by
  cases h : s.inv <;>
    simp [update_inventory, avgCostOf, qtyBefore, freshInventoryRow, h]

/-- C9: after any `update_inventory` call, from any prior state, the stored
generated column `available_quantity` of the resulting inventory row equals
`quantity - reserved_quantity` (the database recomputes the generated column
on the INSERT and on the UPDATE the function performs). -/
theorem C9_available_quantity_invariant (s : LedgerState) (q : ℚ) (c : Option ℚ)
    (row : InventoryRow) (h : (update_inventory s q c).inv = some row) :
    row.available_quantity = row.quantity - row.reserved_quantity := by
  cases hs : s.inv <;> simp [update_inventory, qtyBefore, hs] at h <;> subst h <;> rfl

theorem C9_available_quantity_invariant_witness :
    ∃ row : InventoryRow,
      (update_inventory
          { inv := some { quantity := 5, reserved_quantity := 2,
                          available_quantity := 3, avg_cost := 0 },
            movements := [] } (-1) none).inv = some row ∧
      row.available_quantity = row.quantity - row.reserved_quantity :=
  have h : (update_inventory
      { inv := some { quantity := 5, reserved_quantity := 2,
                      available_quantity := 3, avg_cost := 0 },
        movements := [] } (-1) none).inv =
      some { quantity := 4, reserved_quantity := 2,
             available_quantity := 2, avg_cost := 0 } := by
    simp [update_inventory, qtyBefore]
    norm_num
  ⟨_, h, C9_available_quantity_invariant
    { inv := some { quantity := 5, reserved_quantity := 2,
                    available_quantity := 3, avg_cost := 0 },
      movements := [] } (-1) none _ h⟩

/-! ## Document number generators: `generate_transaction_number`,
`generate_work_order_number` -/

/-- Digit run of a Postgres integer literal: all characters must be digits
and at least one must be present (otherwise `CAST(text AS INTEGER)` errors). -/
def digitsToNat (cs : List Char) : Option Nat :=
  if cs = [] then none
  else if cs.all Char.isDigit then
    some (cs.foldl (fun a c => 10 * a + (c.toNat - 48)) 0)
  else none

/-- Postgres `CAST(text AS INTEGER)`: optional sign followed by digits;
any other input raises (modelled as `none`). -/
def parseIntPg (s : String) : Option Int :=
  match s.toList with
  | '-' :: rest => (digitsToNat rest).map (fun n => -(n : Int))
  | '+' :: rest => (digitsToNat rest).map (fun n => (n : Int))
  | cs => (digitsToNat cs).map (fun n => (n : Int))

/-- Postgres `LPAD(s, n, c)`: left-pad to length `n`, truncating on the
right when `s` is longer. -/
def lpad (s : String) (n : Nat) (c : Char) : String :=
  if n ≤ s.toList.length then (s.toList.take n).asString
  else (List.replicate (n - s.toList.length) c).asString ++ s

/-- Postgres `SUBSTRING(s FROM start)` with a 1-indexed start position:
the suffix of `s` from that position. -/
def substrFrom (s : String) (start1 : Nat) : String :=
  (s.toList.drop (start1 - 1)).asString

/-- `MAX` aggregate over integers: `NULL` (none) on the empty set. -/
def pgMaxInt : List Int → Option Int
  | [] => none
  | x :: xs => some (xs.foldl max x)

/-- The PL/pgSQL function `generate_transaction_number`, as a function of the
branch code, today's `YYMMDD` date string, and the `transaction_number`s of
this branch's transactions with `transaction_date = CURRENT_DATE`.  It
computes `COALESCE(MAX(CAST(SUBSTRING(transaction_number FROM
LENGTH(branch_code) + 8) AS INTEGER)), 0) + 1` and returns
`branch_code || '-' || date || '-' || LPAD(seq, 4, '0')`; a failing CAST
aborts the query (`none`). -/
def generate_transaction_number (branchCode dateStr : String)
    (existing : List String) : Option String :=
  let parsed := existing.map fun t =>
    parseIntPg (substrFrom t (branchCode.toList.length + 8))
  if parsed.all Option.isSome then
    let v_seq : Int := (pgMaxInt (parsed.filterMap id)).getD 0 + 1
    some (branchCode ++ "-" ++ dateStr ++ "-" ++ lpad (toString v_seq) 4 '0')
  else none

/-- The PL/pgSQL function `generate_work_order_number`: same shape with the
`WO-` prefix and `SUBSTRING(work_order_number FROM LENGTH(branch_code) + 11)`,
over the branch's work orders received today. -/
def generate_work_order_number (branchCode dateStr : String)
    (existing : List String) : Option String :=
  let parsed := existing.map fun t =>
    parseIntPg (substrFrom t (branchCode.toList.length + 11))
  if parsed.all Option.isSome then
    let v_seq : Int := (pgMaxInt (parsed.filterMap id)).getD 0 + 1
    some ("WO-" ++ branchCode ++ "-" ++ dateStr ++ "-" ++
      lpad (toString v_seq) 4 '0')
  else none

/-- An event in an interleaved execution of two sale flows against one
branch and day: caller `i` runs `generate_transaction_number` (a plain
`SELECT` taking no lock and writing nothing, so it sees exactly the
committed transactions), or caller `i` commits the `INSERT` of its
transaction row carrying the number it received. -/
inductive TxEvent where
  | genCall (caller : Fin 2)
  | insertTx (caller : Fin 2)

/-- State of an interleaved execution: the committed transaction numbers
visible to a `SELECT`, and the number each caller has received so far. -/
structure GenSchedState where
  committed : List String
  result : Fin 2 → Option String

def stepTxEvent (branchCode dateStr : String) (s : GenSchedState) :
    TxEvent → GenSchedState
  | .genCall i =>
      { s with result := fun j =>
          if j = i then generate_transaction_number branchCode dateStr s.committed
          else s.result j }
  | .insertTx i =>
      match s.result i with
      | some n => { s with committed := s.committed ++ [n] }
      | none => s

/-- Run an interleaving of the two sale flows from an empty day. -/
def runTxSchedule (branchCode dateStr : String) (evs : List TxEvent) :
    GenSchedState :=
  evs.foldl (stepTxEvent branchCode dateStr) { committed := [], result := fun _ => none }

/-- C4: the `SUBSTRING` start index in both generators is off by one: for
branch code `BR01` the suffix extracted from `BR01-251011-0001` begins at the
second hyphen, so `CAST` parses `-0001` as −1, `COALESCE(MAX(..),0)+1`
yields 0, and the next number issued is `BR01-251011-0000` — not
`BR01-251011-0002` as the claimed `max + 1` rule requires (similarly
`WO-BR01-251011-0000` for work orders). -/
theorem C4_sequence_number_off_by_one :
    generate_transaction_number "BR01" "251011" ["BR01-251011-0001"] =
      some "BR01-251011-0000" ∧
    generate_work_order_number "BR01" "251011" ["WO-BR01-251011-0001"] =
      some "WO-BR01-251011-0000" ∧
    some "BR01-251011-0000" ≠ some "BR01-251011-0002" := by
  refine ⟨by decide, by decide, by decide⟩

/-- C5: `generate_transaction_number` takes no lock and performs no write,
so under the interleaving in which both callers run the generator before
either commits its transaction row — a legal concurrent execution under any
isolation level, since the generator reserves nothing — both callers receive
the same document number `BR01-251011-0001`; the second `INSERT` then
violates `transactions.transaction_number UNIQUE`. -/
theorem C5_concurrent_callers_collide :
    (runTxSchedule "BR01" "251011"
        [.genCall 0, .genCall 1, .insertTx 0, .insertTx 1]).result 0 =
      some "BR01-251011-0001" ∧
    (runTxSchedule "BR01" "251011"
        [.genCall 0, .genCall 1, .insertTx 0, .insertTx 1]).result 1 =
      some "BR01-251011-0001" := by
  refine ⟨by decide, by decide⟩

/-! ## POS frontend: cart, totals, payment (`POS` module of the frontend) -/

/-- A product entry of `POS.products` (fields used by `addToCart`). -/
structure Product where
  id : String
  name : String
  selling_price : ℚ
  deriving Repr, DecidableEq

/-- A `POS.cart` line: `{id, name, price, quantity, type}` as pushed by
`addToCart`.  Cart quantities are created at 1 and changed only by ±1, so
they are embedded as integers; prices as rationals. -/
structure CartItem where
  id : String
  name : String
  price : ℚ
  quantity : ℤ
  deriving Repr, DecidableEq

/-- The record returned by `POS.calculateTotals`. -/
structure Totals where
  subtotal : ℚ
  discount : ℚ
  tax : ℚ
  total : ℚ
  deriving Repr, DecidableEq

/-- `POS.calculateTotals`: `subtotal = cart.reduce(sum + price*quantity, 0)`,
`discount = 0`, `tax = subtotal * 0.1`, `total = subtotal - discount + tax`. -/
def calculateTotals (cart : List CartItem) : Totals :=
  let subtotal : ℚ := cart.foldl (fun sum item => sum + item.price * (item.quantity : ℚ)) 0
  let discount : ℚ := 0
  let tax : ℚ := subtotal * (1 / 10)
  let total : ℚ := subtotal - discount + tax
  { subtotal := subtotal, discount := discount, tax := tax, total := total }

/-- A line of the transaction payload built by `POS.completePayment`. -/
structure TxLineItem where
  item_id : String
  quantity : ℤ
  unit_price : ℚ
  deriving Repr, DecidableEq

/-- The transaction payload `POS.completePayment` sends to
`API.transactions.create`: the mapped cart lines and a single payment of the
computed total. -/
structure TransactionData where
  items : List TxLineItem
  payments : List ℚ
  deriving Repr, DecidableEq

/-- `POS.completePayment`: if the amount received is strictly below the
computed total it shows an error and returns without creating anything;
otherwise it builds the transaction payload and submits it. -/
def completePayment (cart : List CartItem) (totals : Totals) (received : ℚ) :
    Option TransactionData :=
  if received < totals.total then none
  else
    some { items := cart.map fun item =>
             { item_id := item.id, quantity := item.quantity, unit_price := item.price }
           payments := [totals.total] }

/-- The change displayed by `POS.showPaymentModal`:
`Math.max(0, received - totals.total)`. -/
def changeShown (received total : ℚ) : ℚ := max 0 (received - total)

/-- `POS.addToCart`: no-op when the product is unknown; otherwise increment
the quantity of the first cart line with this id, or push a new line with
quantity 1. -/
def bumpFirstQuantity : List CartItem → String → List CartItem
  | [], _ => []
  | i :: rest, pid =>
      if i.id = pid then { i with quantity := i.quantity + 1 } :: rest
      else i :: bumpFirstQuantity rest pid

def addToCart (products : List Product) (cart : List CartItem)
    (productId : String) : List CartItem :=
  match products.find? (fun p => p.id == productId) with
  | none => cart
  | some product =>
      match cart.find? (fun item => item.id == productId) with
      | some _ => bumpFirstQuantity cart productId
      | none =>
          cart ++ [{ id := product.id, name := product.name,
                     price := product.selling_price, quantity := 1 }]

/-- `POS.removeFromCart`: `cart.filter(i => i.id !== itemId)`. -/
def removeFromCart (cart : List CartItem) (itemId : String) : List CartItem :=
  cart.filter (fun i => i.id != itemId)

/-- Decrement of the first cart line with the given id (the mutation
`item.quantity -= 1` performed on the line `find` returned). -/
def decFirstQuantity : List CartItem → String → List CartItem
  | [], _ => []
  | i :: rest, pid =>
      if i.id = pid then { i with quantity := i.quantity - 1 } :: rest
      else i :: decFirstQuantity rest pid

/-- `POS.updateQuantity`: no-op when no cart line has the id; `increase`
adds 1 to the found line; `decrease` subtracts 1 and, when the result is
≤ 0, removes the line via `removeFromCart`; other actions change nothing. -/
def updateQuantity (cart : List CartItem) (itemId : String) (action : String) :
    List CartItem :=
  match cart.find? (fun i => i.id == itemId) with
  | none => cart
  | some item =>
      if action = "increase" then bumpFirstQuantity cart itemId
      else if action = "decrease" then
        if item.quantity - 1 ≤ 0 then removeFromCart cart itemId
        else decFirstQuantity cart itemId
      else cart

/-- `POS.clearCart`: the cart becomes empty. -/
def clearCart : List CartItem := []

/-- The cart invariant: every line's quantity is at least 1. -/
def cartQuantitiesOK (cart : List CartItem) : Prop :=
  ∀ i ∈ cart, 1 ≤ i.quantity

lemma foldl_add_eq_sum (f : CartItem → ℚ) (l : List CartItem) (a : ℚ) :
    l.foldl (fun s i => s + f i) a = a + (l.map f).sum := by
  induction l generalizing a with
  | nil => simp
  | cons x xs ih => simp [ih, add_assoc]

/-- C6: `POS.calculateTotals` returns `subtotal = Σ price·quantity`,
`tax = subtotal/10` (the hard-coded 10% rate), `discount = 0`, and
`total = subtotal - discount + tax` exactly; for a cart of 2 units at unit
price 25000 it returns subtotal 50000, tax 5000, total 55000. -/
theorem C6_calculate_totals :
    (∀ cart : List CartItem,
      (calculateTotals cart).subtotal =
        (cart.map fun i => i.price * (i.quantity : ℚ)).sum ∧
      (calculateTotals cart).tax = (calculateTotals cart).subtotal / 10 ∧
      (calculateTotals cart).total =
        (calculateTotals cart).subtotal - (calculateTotals cart).discount +
          (calculateTotals cart).tax) ∧
    calculateTotals [{ id := "itm1", name := "Item", price := 25000, quantity := 2 }] =
      { subtotal := 50000, discount := 0, tax := 5000, total := 55000 } := by
  constructor
  · intro cart
    refine ⟨?_, ?_, ?_⟩
    · simpa [calculateTotals] using
        foldl_add_eq_sum (fun i => i.price * (i.quantity : ℚ)) cart 0
    · simp only [calculateTotals]
      ring
    · simp only [calculateTotals]
  · simp [calculateTotals]
    norm_num

/-- C7: `POS.completePayment` rejects the payment and creates no transaction
when the amount received is strictly below the computed total; when received
is at least the total, the change shown by the payment modal equals
received − total; paying 60000 against a 55000 total shows change 5000. -/
theorem C7_payment_validation :
    (∀ (cart : List CartItem) (received : ℚ),
      received < (calculateTotals cart).total →
      completePayment cart (calculateTotals cart) received = none) ∧
    (∀ received total : ℚ, total ≤ received →
      changeShown received total = received - total) ∧
    changeShown 60000 55000 = 5000 := by
  refine ⟨?_, ?_, ?_⟩
  · intro cart received h
    simp [completePayment, h]
  · intro received total h
    unfold changeShown
    exact max_eq_right (by linarith)
  · unfold changeShown
    norm_num

theorem C7_payment_validation_witness :
    completePayment
        [{ id := "itm1", name := "Item", price := 25000, quantity := 2 }]
        (calculateTotals
          [{ id := "itm1", name := "Item", price := 25000, quantity := 2 }])
        50000 = none ∧
    changeShown 60000 55000 = 60000 - 55000 :=
  ⟨C7_payment_validation.1
      [{ id := "itm1", name := "Item", price := 25000, quantity := 2 }] 50000
      (by simp [calculateTotals]; norm_num),
   C7_payment_validation.2.1 60000 55000 (by norm_num)⟩

lemma cartQuantitiesOK_bump (cart : List CartItem) (pid : String)
    (h : cartQuantitiesOK cart) : cartQuantitiesOK (bumpFirstQuantity cart pid) := by
  induction cart with
  | nil => intro i hi; simp [bumpFirstQuantity] at hi
  | cons x xs ih =>
      intro i hi
      by_cases hx : x.id = pid
      · simp only [bumpFirstQuantity, if_pos hx, List.mem_cons] at hi
        rcases hi with hi | hi
        · subst hi
          have hx1 : 1 ≤ x.quantity := h x (by simp)
          simp only
          omega
        · exact h i (by simp [hi])
      · simp only [bumpFirstQuantity, if_neg hx, List.mem_cons] at hi
        rcases hi with hi | hi
        · exact hi ▸ h _ (List.mem_cons_self _ _)
        · exact ih (fun j hj => h j (by simp [hj])) i hi

lemma cartQuantitiesOK_dec (cart : List CartItem) (pid : String) (item : CartItem)
    (hfind : cart.find? (fun i => i.id == pid) = some item)
    (hq : 2 ≤ item.quantity)
    (h : cartQuantitiesOK cart) : cartQuantitiesOK (decFirstQuantity cart pid) := by
  induction cart with
  | nil => simp at hfind
  | cons x xs ih =>
      by_cases hx : x.id = pid
      · have hxitem : x = item := by
          simp [List.find?_cons, hx] at hfind
          exact hfind
        intro i hi
        simp only [decFirstQuantity, if_pos hx, List.mem_cons] at hi
        rcases hi with hi | hi
        · have hq' : 2 ≤ x.quantity := hxitem ▸ hq
          subst hi
          simp only
          omega
        · exact h i (by simp [hi])
      · have hfind' : xs.find? (fun i => i.id == pid) = some item := by
          simpa [List.find?_cons, hx] using hfind
        intro i hi
        simp only [decFirstQuantity, if_neg hx, List.mem_cons] at hi
        rcases hi with hi | hi
        · exact hi ▸ h _ (List.mem_cons_self _ _)
        · exact ih hfind' (fun j hj => h j (by simp [hj])) i hi

lemma cartQuantitiesOK_filter (cart : List CartItem) (p : CartItem → Bool)
    (h : cartQuantitiesOK cart) : cartQuantitiesOK (cart.filter p) :=
  fun i hi => h i (List.mem_of_mem_filter hi)

/-- C10: every cart operation preserves the invariant that each cart line
has quantity ≥ 1: `addToCart` increments an existing line or pushes a new
line at quantity 1, `updateQuantity` adds or subtracts 1 and removes the
line when a decrease reaches 0, `removeFromCart` filters, `clearCart`
empties; moreover decreasing a line whose quantity is at most 1 leaves no
line with that id in the cart. -/
theorem C10_cart_quantity_invariant :
    (∀ (products : List Product) (cart : List CartItem) (pid : String),
      cartQuantitiesOK cart → cartQuantitiesOK (addToCart products cart pid)) ∧
    (∀ (cart : List CartItem) (iid action : String),
      cartQuantitiesOK cart → cartQuantitiesOK (updateQuantity cart iid action)) ∧
    (∀ (cart : List CartItem) (iid : String),
      cartQuantitiesOK cart → cartQuantitiesOK (removeFromCart cart iid)) ∧
    cartQuantitiesOK clearCart ∧
    (∀ (cart : List CartItem) (iid : String) (item : CartItem),
      cart.find? (fun i => i.id == iid) = some item →
      item.quantity ≤ 1 →
      ∀ j ∈ updateQuantity cart iid "decrease", j.id ≠ iid) := by
  refine ⟨?_, ?_, ?_, ?_, ?_⟩
  · intro products cart pid h
    unfold addToCart
    cases products.find? (fun p => p.id == pid) with
    | none => exact h
    | some product =>
        cases hf : cart.find? (fun item => item.id == pid) with
        | some _ => exact cartQuantitiesOK_bump cart pid h
        | none =>
            intro i hi
            rcases List.mem_append.mp hi with hi | hi
            · exact h i hi
            · simp only [List.mem_singleton] at hi
              subst hi
              exact le_refl 1
  · intro cart iid action h
    unfold updateQuantity
    cases hf : cart.find? (fun i => i.id == iid) with
    | none => exact h
    | some item =>
        by_cases hinc : action = "increase"
        · simp only [if_pos hinc]
          exact cartQuantitiesOK_bump cart iid h
        · simp only [if_neg hinc]
          by_cases hdec : action = "decrease"
          · simp only [if_pos hdec]
            by_cases hz : item.quantity - 1 ≤ 0
            · simp only [if_pos hz]
              exact cartQuantitiesOK_filter cart _ h
            · simp only [if_neg hz]
              exact cartQuantitiesOK_dec cart iid item hf (by omega) h
          · simp only [if_neg hdec]
            exact h
  · intro cart iid h
    exact cartQuantitiesOK_filter cart _ h
  · intro i hi
    simp [clearCart] at hi
  · intro cart iid item hfind hq j hj
    have heq : updateQuantity cart iid "decrease" = removeFromCart cart iid := by
      unfold updateQuantity
      rw [hfind]
      have h1 : ¬ ("decrease" : String) = "increase" := by decide
      have h2 : item.quantity - 1 ≤ 0 := by omega
      simp [h1, h2]
    rw [heq] at hj
    have := List.mem_filter.mp hj
    simpa using this.2

theorem C10_cart_quantity_invariant_witness :
    cartQuantitiesOK
      (addToCart [{ id := "p1", name := "P", selling_price := 5 }] [] "p1") ∧
    (∀ j ∈ updateQuantity
        [{ id := "p1", name := "P", price := 5, quantity := 1 }] "p1" "decrease",
      j.id ≠ "p1") :=
  ⟨C10_cart_quantity_invariant.1
      [{ id := "p1", name := "P", selling_price := 5 }] [] "p1"
      (fun i hi => absurd hi (List.not_mem_nil i)),
   C10_cart_quantity_invariant.2.2.2.2
      [{ id := "p1", name := "P", price := 5, quantity := 1 }] "p1"
      { id := "p1", name := "P", price := 5, quantity := 1 }
      rfl (le_refl 1)⟩

/-! ## Audit recorder: `audit_trigger_func` -/

/-- A `jsonb` value as produced by `to_jsonb` on a row (shapes relevant to
the audited tables); `null` is the jsonb null, distinct from an absent key. -/
inductive JVal where
  | null
  | str (s : String)
  | num (q : ℚ)
  | bool (b : Bool)
  deriving Repr, DecidableEq

/-- A row snapshot `to_jsonb(OLD)` / `to_jsonb(NEW)`: field name to value.
A trigger row's snapshot has one entry per column of the table. -/
abbrev JRow := List (String × JVal)

/-- `jsonb -> key`: the value at the key, or SQL NULL (`none`) when absent. -/
def jsonbGet (r : JRow) (k : String) : Option JVal :=
  (r.find? (fun kv => kv.1 == k)).map Prod.snd

/-- `SELECT array_agg(key) FROM jsonb_each(new_json) AS n(key, value) WHERE
n.value IS DISTINCT FROM old_json -> n.key`: the keys of the new snapshot
whose value is distinct from the old snapshot's value at that key
(`IS DISTINCT FROM` treats SQL NULL as an ordinary comparand). -/
def changedFields (oldRow newRow : JRow) : List String :=
  (newRow.filter (fun kv => jsonbGet oldRow kv.1 != some kv.2)).map Prod.fst

/-- An `audit_logs` row (columns written by the trigger function). -/
structure AuditLog where
  table_name : String
  record_id : String
  action : String
  old_data : Option JRow
  new_data : Option JRow
  changed_fields : Option (List String)
  deriving Repr, DecidableEq

/-- The `TG_OP = 'UPDATE'` branch of `audit_trigger_func`: compute
`changed_cols` and insert an `audit_logs` row only when
`changed_cols IS NOT NULL AND array_length(changed_cols, 1) > 0`
(`array_agg` over zero rows is NULL, so an UPDATE that changes nothing
records nothing). -/
def audit_update (tbl rid : String) (oldRow newRow : JRow) : Option AuditLog :=
  let changed_cols := changedFields oldRow newRow
  if changed_cols ≠ [] then
    some { table_name := tbl, record_id := rid, action := "UPDATE",
           old_data := some oldRow, new_data := some newRow,
           changed_fields := some changed_cols }
  else none

lemma jsonbGet_cons (kv : String × JVal) (rest : JRow) (k : String) :
    jsonbGet (kv :: rest) k = if kv.1 = k then some kv.2 else jsonbGet rest k := by
  by_cases h : kv.1 = k <;> simp [jsonbGet, List.find?_cons, h]

lemma jsonbGet_of_mem (r : JRow) (k : String) (v : JVal)
    (hnodup : (r.map Prod.fst).Nodup) (hmem : (k, v) ∈ r) :
    jsonbGet r k = some v := by
  induction r with
  | nil => simp at hmem
  | cons kv rest ih =>
      simp only [List.map_cons, List.nodup_cons] at hnodup
      rcases List.mem_cons.mp hmem with h | h
      · rw [jsonbGet_cons, if_pos (by rw [← h])]
        rw [← h]
      · have hk : ¬ kv.1 = k := by
          intro he
          exact hnodup.1 (he ▸ List.mem_map.mpr ⟨(k, v), h, rfl⟩)
        rw [jsonbGet_cons, if_neg hk]
        exact ih hnodup.2 h

lemma mem_of_jsonbGet (r : JRow) (k : String) (v : JVal)
    (h : jsonbGet r k = some v) : (k, v) ∈ r := by
  unfold jsonbGet at h
  cases hf : r.find? (fun kv => kv.1 == k) with
  | none =>
      rw [hf] at h
      exact Option.noConfusion h
  | some kv =>
      rw [hf] at h
      simp only [Option.map_some', Option.some.injEq] at h
      have hmem := List.mem_of_find?_eq_some hf
      have hp := List.find?_some hf
      simp only [beq_iff_eq] at hp
      have hkv : kv = (k, v) := by
        obtain ⟨k', v'⟩ := kv
        simp only at hp h
        simp [hp, h]
      exact hkv ▸ hmem

lemma jsonbGet_eq_none_iff (r : JRow) (k : String) :
    jsonbGet r k = none ↔ k ∉ r.map Prod.fst := by
  unfold jsonbGet
  rw [Option.map_eq_none', List.find?_eq_none]
  constructor
  · intro h hk
    rcases List.mem_map.mp hk with ⟨kv, hkv, hfst⟩
    exact h kv hkv (by simp [hfst])
  · intro h kv hkv hbeq
    simp only [beq_iff_eq] at hbeq
    exact h (List.mem_map.mpr ⟨kv, hkv, hbeq⟩)

lemma mem_changedFields_iff (oldRow newRow : JRow) (k : String)
    (hnodup : (newRow.map Prod.fst).Nodup) :
    k ∈ changedFields oldRow newRow ↔
      ∃ v, jsonbGet newRow k = some v ∧ jsonbGet oldRow k ≠ some v := by
  unfold changedFields
  rw [List.mem_map]
  constructor
  · rintro ⟨kv, hkv, rfl⟩
    rw [List.mem_filter] at hkv
    refine ⟨kv.2, jsonbGet_of_mem newRow kv.1 kv.2 hnodup ?_, ?_⟩
    · exact (Prod.mk.eta (p := kv)) ▸ hkv.1
    · simpa using hkv.2
  · rintro ⟨v, hget, hne⟩
    have hmem : (k, v) ∈ newRow := mem_of_jsonbGet newRow k v hget
    exact ⟨(k, v), List.mem_filter.mpr ⟨hmem, by simpa using hne⟩, rfl⟩

/-- C8: for an audited UPDATE — where the before and after snapshots are row
images of one table, so they carry the same field names, each once — the
recorded changed-field set is exactly the set of fields whose value differs
between the two snapshots (their symmetric difference), and an UPDATE that
changes no field records no audit row at all. -/
theorem C8_audit_changed_fields (tbl rid : String) (oldRow newRow : JRow)
    (hkeys : oldRow.map Prod.fst = newRow.map Prod.fst)
    (hnodup : (newRow.map Prod.fst).Nodup) :
    (∀ k : String,
      k ∈ changedFields oldRow newRow ↔ jsonbGet oldRow k ≠ jsonbGet newRow k) ∧
    (audit_update tbl rid oldRow newRow = none ↔
      ∀ k : String, jsonbGet oldRow k = jsonbGet newRow k) := by
  have hmemiff : ∀ k : String,
      k ∈ changedFields oldRow newRow ↔ jsonbGet oldRow k ≠ jsonbGet newRow k := by
    intro k
    rw [mem_changedFields_iff oldRow newRow k hnodup]
    cases hnew : jsonbGet newRow k with
    | none =>
        have hold : jsonbGet oldRow k = none := by
          rw [jsonbGet_eq_none_iff] at hnew ⊢
          rw [hkeys]; exact hnew
        simp [hold]
    | some v => simp [hnew]
  refine ⟨hmemiff, ?_⟩
  constructor
  · intro hnone k
    by_contra hne
    have hk : k ∈ changedFields oldRow newRow := (hmemiff k).mpr hne
    unfold audit_update at hnone
    by_cases hc : changedFields oldRow newRow = []
    · rw [hc] at hk; simp at hk
    · rw [if_pos hc] at hnone; simp at hnone
  · intro hall
    unfold audit_update
    rw [if_neg ?hcond]
    case hcond =>
      simp only [ne_eq, not_not]
      by_contra hc
      obtain ⟨k, hk⟩ := List.exists_mem_of_ne_nil _ hc
      exact (hmemiff k).mp hk (hall k)

theorem C8_audit_changed_fields_witness :
    (∀ k : String,
      k ∈ changedFields
          [("id", JVal.str "r1"), ("qty", JVal.str "5")]
          [("id", JVal.str "r1"), ("qty", JVal.str "6")] ↔
        jsonbGet [("id", JVal.str "r1"), ("qty", JVal.str "5")] k ≠
          jsonbGet [("id", JVal.str "r1"), ("qty", JVal.str "6")] k) ∧
    (audit_update "inventory" "r1"
        [("id", JVal.str "r1"), ("qty", JVal.str "5")]
        [("id", JVal.str "r1"), ("qty", JVal.str "6")] = none ↔
      ∀ k : String,
        jsonbGet [("id", JVal.str "r1"), ("qty", JVal.str "5")] k =
          jsonbGet [("id", JVal.str "r1"), ("qty", JVal.str "6")] k) :=
  C8_audit_changed_fields "inventory" "r1"
    [("id", JVal.str "r1"), ("qty", JVal.str "5")]
    [("id", JVal.str "r1"), ("qty", JVal.str "6")]
    rfl (by decide)

end POSVerify
